import Mathlib

/-!
Shallow embedding of the rustdesk host-side session server
(`src/server.rs` and `src/server/audio_service.rs`): the connection
establishment handshake, the service registry (subscription engine,
identifier allocation, display capture selection) and the audio
service's restart flag and silence gate.

Machine integers are modelled as `Int`/`Nat` with explicit wrapping
where overflow matters; fallible paths return `Except`; global mutable
state (the audio statics) is passed explicitly.
-/

namespace Rustdesk

/-! ## Handshake (`create_tcp_connection`, src/server.rs lines 171-245) -/

/-- `sodiumoxide::crypto::sign::PUBLICKEYBYTES` (Ed25519 public key size). -/
def SIGN_PUBLICKEYBYTES : Nat := 32

/-- `sodiumoxide::crypto::sign::SECRETKEYBYTES` (Ed25519 secret key size). -/
def SIGN_SECRETKEYBYTES : Nat := 64

/-- `sodiumoxide::crypto::box_::PUBLICKEYBYTES` (Curve25519 public key size). -/
def BOX_PUBLICKEYBYTES : Nat := 32

/-- Outcome of `timeout(CONNECT_TIMEOUT, stream.next())` followed by
`Message::parse_from_bytes` and the `message::Union` match in
`create_tcp_connection`:
* `absent`: `stream.next()` returned `None`;
* `unparseable`: bytes received but `Message::parse_from_bytes` failed;
* `wrongType`: a message parsed but its union is not `PublicKey`;
* `publicKey asym sym`: a `PublicKey` message with `asymmetric_value`
  and `symmetric_value` byte strings. -/
inductive PeerResponse where
  | absent : PeerResponse
  | unparseable : PeerResponse
  | wrongType : PeerResponse
  | publicKey (asym : List Nat) (sym : List Nat) : PeerResponse
deriving DecidableEq, Repr

/-- Whether `stream.set_key` was called (transport switched to
authenticated-encrypted mode) or the stream stayed in clear mode. -/
inductive StreamMode where
  | clear : StreamMode
  | encrypted : StreamMode
deriving DecidableEq, Repr

/-- Observable outcome of a `create_tcp_connection` call that did not
return an error: which mode the stream ended in, whether
`Config::set_key_confirmed(false)` was called, whether the signed
identity message was sent, and whether `Connection::start` was reached
(the connection was started / handed to the registry path). -/
structure HandshakeOutcome where
  mode : StreamMode
  keyConfirmedCleared : Bool
  sentSignedId : Bool
  started : Bool
deriving DecidableEq, Repr

/-- `create_tcp_connection` (src/server.rs lines 171-245), as a function
of the `secure` flag, the lengths of the configured long-term key pair
`(sk, pk)` from `Config::get_key_pair()`, and the peer's response.

The secure branch is taken exactly when `secure` holds and both key
lengths are as expected; otherwise the whole key exchange is skipped and
the connection is started in clear mode.  Inside the secure branch the
response is dispatched exactly as the source's `match`/`if let` chain:
`None` and parse failure `bail!`; a non-`PublicKey` message only logs
`"Handshake failed: invalid message type"` and falls through to
`Connection::start`; a `PublicKey` whose `asymmetric_value` has the
expected length switches the stream to encrypted mode, an empty one
clears the key-confirmed flag, and any other length `bail!`s.

Modelled from the spec: `tcp::Encrypt::decode` lives in the `hbb_common`
library (not under src/); the spec says a correct-length ephemeral key
leads to deriving the session key and switching to encrypted mode, so
decoding is modelled as succeeding.  The bounded send/receive timeouts
are the spec's separate Timeout failure class and are outside this
model: the response value already represents what arrived in time. -/
def create_tcp_connection (secure : Bool) (skLen pkLen : Nat)
    (resp : PeerResponse) : Except String HandshakeOutcome :=
  if secure ∧ pkLen = SIGN_PUBLICKEYBYTES ∧ skLen = SIGN_SECRETKEYBYTES then
    match resp with
    | .absent => .error "Failed to receive public key"
    | .unparseable => .error "Handshake failed: invalid message format"
    | .wrongType =>
        .ok { mode := .clear, keyConfirmedCleared := false,
              sentSignedId := true, started := true }
    | .publicKey asym _sym =>
        if asym.length = BOX_PUBLICKEYBYTES then
          .ok { mode := .encrypted, keyConfirmedCleared := false,
                sentSignedId := true, started := true }
        else if asym.length = 0 then
          .ok { mode := .clear, keyConfirmedCleared := true,
                sentSignedId := true, started := true }
        else
          .error "Handshake failed: invalid public sign key length from peer"
  else
    .ok { mode := .clear, keyConfirmedCleared := false,
          sentSignedId := false, started := true }

/-! ## Service registry (`Server`, src/server.rs lines 96-487) -/

/-- `video_service::VideoSource` (the two kinds of video capture
sources dispatched on in src/server.rs). -/
inductive VideoSource where
  | Monitor : VideoSource
  | Camera : VideoSource
deriving DecidableEq, Repr

/-- Modelled from the spec: `VideoSource::service_name_stem` stands for
the source's reserved service-name stem (`service_name_prefix()` in the
source, defined in `video_service.rs`, which is not under src/); the
spec only requires that video/camera service names begin with a
reserved per-source stem. -/
def VideoSource.service_name_stem : VideoSource → String
  | .Monitor => "monitor_"
  | .Camera => "camera_"

/-- Modelled from the spec: `video_service::get_service_name(source,
idx)` (defined in `video_service.rs`, not under src/) forms the name of
the video service for display/camera index `idx` from the source's
reserved stem and the index. -/
def get_service_name (source : VideoSource) (idx : Nat) : String :=
  source.service_name_stem ++ toString idx

/-- Rust `str::starts_with`, on the underlying character sequences. -/
def strStartsWith (s stem : String) : Bool :=
  stem.data.isPrefixOf s.data

/-- `Server::is_video_service_name` (src/server.rs lines 304-307): the
name begins with the Monitor stem or the Camera stem. -/
def is_video_service_name (name : String) : Bool :=
  strStartsWith name (VideoSource.Monitor.service_name_stem)
    || strStartsWith name (VideoSource.Camera.service_name_stem)

/-- A registered service, reduced to what the registry observes of it:
its stable `name` and its subscriber set (a duplicate-free list of
connection ids).  Modelled from the spec: the `Service` trait
implementation (`service.rs`, not under src/) maintains a subscriber
set with `on_subscribe`/`on_unsubscribe` adding/removing a subscriber
and `is_subscribed` testing membership. -/
structure Service where
  name : String
  subscribers : List Int
deriving DecidableEq, Repr

instance : Inhabited Service := ⟨⟨"", []⟩⟩

/-- `Service::is_subed(conn_id)`: subscriber-set membership. -/
def Service.is_subed (s : Service) (connId : Int) : Bool :=
  s.subscribers.contains connId

/-- `Service::on_subscribe(conn)`: add the connection to the subscriber
set (no duplicate entry when already present). -/
def Service.on_subscribe (s : Service) (connId : Int) : Service :=
  if s.subscribers.contains connId then s
  else { s with subscribers := s.subscribers ++ [connId] }

/-- `Service::on_unsubscribe(conn_id)`: remove the connection from the
subscriber set. -/
def Service.on_unsubscribe (s : Service) (connId : Int) : Service :=
  { s with subscribers := s.subscribers.filter (fun c => c ≠ connId) }

/-- `struct Server` (src/server.rs lines 96-100): the connection map is
reduced to the list of registered connection ids, the `services`
`HashMap` to a list of services with pairwise-distinct names, and
`id_count` to a mathematical integer carrying the `i32` value. -/
structure Server where
  connections : List Int
  services : List Service
  id_count : Int
deriving DecidableEq, Repr

/-- `new()` (src/server.rs lines 105-153): the platform-dependent set of
initially added services is passed in as `svcs`; `id_count` is seeded
with `rand::random::<i32>() % 1000 + 1000` from the random value `r`
(Rust `%` on `i32` is truncated remainder, `Int.tmod`). -/
def Server.new (r : Int) (svcs : List Service) : Server :=
  { connections := [], services := svcs, id_count := Int.tmod r 1000 + 1000 }

/-- Two's-complement wrap into the `i32` range (release-mode Rust `i32`
addition wraps). -/
def wrap32 (x : Int) : Int := (x + 2 ^ 31) % 2 ^ 32 - 2 ^ 31

/-- `Server::get_new_id` (src/server.rs lines 410-414): increment
`id_count` and return it. -/
def Server.get_new_id (sv : Server) : Server × Int :=
  let n := wrap32 (sv.id_count + 1)
  ({ sv with id_count := n }, n)

/-- The ids returned by `n` successive `get_new_id` calls. -/
def Server.genIds (sv : Server) : Nat → List Int
  | 0 => []
  | n + 1 =>
    let p := sv.get_new_id
    p.2 :: p.1.genIds n

/-- Notification issued to a service by `Server::subscribe`: the
`on_subscribe`/`on_unsubscribe` call it makes. -/
inductive SubEvent where
  | subscribed (name : String) (connId : Int) : SubEvent
  | unsubscribed (name : String) (connId : Int) : SubEvent
deriving DecidableEq, Repr

/-- `Server::subscribe` (src/server.rs lines 395-408), instrumented with
the list of notifications issued: look the service up by name (`HashMap
::get`); if absent, do nothing; if its subscription state for the
connection already equals `sub`, return with no change and no
notification; otherwise update the service and record the
`on_subscribe`/`on_unsubscribe` notification. -/
def Server.subscribeE (sv : Server) (name : String) (connId : Int)
    (sub : Bool) : Server × List SubEvent :=
  match sv.services.find? (fun s => s.name = name) with
  | none => (sv, [])
  | some s =>
    if s.is_subed connId = sub then (sv, [])
    else
      let services := sv.services.map fun t =>
        if t.name = name then
          (if sub then t.on_subscribe connId else t.on_unsubscribe connId)
        else t
      ({ sv with services := services },
       [if sub then .subscribed name connId else .unsubscribed name connId])

/-- `Server::subscribe`, state part only. -/
def Server.subscribe (sv : Server) (name : String) (connId : Int)
    (sub : Bool) : Server :=
  (sv.subscribeE name connId sub).1

/-- `Server::add_connection` (src/server.rs lines 347-364): for every
registered service, skip it when it is a video service other than the
primary display's video service; otherwise subscribe the connection
unless the service's name is in `noperms`; finally insert the
connection.  `primaryIdx` is `*display_service::PRIMARY_DISPLAY_IDX`
(a global resolved by the display backend, passed explicitly here). -/
def Server.add_connection (sv : Server) (primaryIdx : Nat) (connId : Int)
    (noperms : List String) : Server :=
  let primary := get_service_name .Monitor primaryIdx
  let services := sv.services.map fun s =>
    if is_video_service_name s.name ∧ s.name ≠ primary then s
    else if noperms.contains s.name then s
    else s.on_subscribe connId
  { sv with services := services, connections := sv.connections ++ [connId] }

/-- One iteration of the loop in `Server::capture_displays`
(src/server.rs lines 461-474) for the service name `name`: video-named
services in the requested name list are subscribed when `inc` is set,
video-named services outside it are unsubscribed when `exc` is set,
other names are left alone. -/
def captureStep (names : List String) (connId : Int) (inc exc : Bool)
    (acc : Server) (name : String) : Server :=
  if is_video_service_name name then
    if names.contains name then
      (if inc then acc.subscribe name connId true else acc)
    else
      (if exc then acc.subscribe name connId false else acc)
  else acc

/-- `Server::capture_displays` (src/server.rs lines 449-475): build the
requested service names from `source` and `displays`, then fold the
per-key loop over the registry's service names. -/
def Server.capture_displays (sv : Server) (connId : Int)
    (source : VideoSource) (displays : List Nat) (inc exc : Bool) : Server :=
  (sv.services.map Service.name).foldl
    (captureStep (displays.map (get_service_name source)) connId inc exc) sv

/-! ## Audio service (`src/server/audio_service.rs`) -/

/-- The audio service's process-wide mutable state
(src/server/audio_service.rs lines 23-27): the `RESTARTING` atomic flag
and the `VOICE_CALL_INPUT_DEVICE` mutex-guarded option, passed
explicitly. -/
structure AudioGlobal where
  voiceCallInputDevice : Option String
  restarting : Bool
deriving DecidableEq, Repr

/-- `restart()` (src/server/audio_service.rs lines 77-83): if the
restart flag is already set, return; otherwise set it. -/
def restart (g : AudioGlobal) : AudioGlobal :=
  if g.restarting then g else { g with restarting := true }

/-- `set_voice_call_input_device(device, set_if_present)`
(src/server/audio_service.rs lines 56-66): bail out when
`set_if_present` is unset and a device is already chosen, or when the
chosen device already equals `device`; otherwise write `device` and
call `restart()`. -/
def set_voice_call_input_device (g : AudioGlobal) (device : Option String)
    (set_if_present : Bool) : AudioGlobal :=
  if !set_if_present && g.voiceCallInputDevice.isSome then g
  else if g.voiceCallInputDevice = device then g
  else restart { g with voiceCallInputDevice := device }

/-- Which branch `cpal_impl::run` (src/server/audio_service.rs lines
236-242) takes at a step: the normal snapshot/serve path, or the
restart-handling path that rebuilds the stream. -/
inductive AudioRunPath where
  | serveSnapshot : AudioRunPath
  | restartPath : AudioRunPath
deriving DecidableEq, Repr

/-- The poll of `RESTARTING` at the top of `cpal_impl::run`: the worker
step dispatches to the restart path exactly when the flag is set. -/
def audio_run_dispatch (restarting : Bool) : AudioRunPath :=
  if restarting then .restartPath else .serveSnapshot

/-- `MAX_AUDIO_ZERO_COUNT` (src/server/audio_service.rs line 472). -/
def MAX_AUDIO_ZERO_COUNT : Nat := 800

/-- `send_f32` (src/server/audio_service.rs lines 475-534), non-Android
path, as a function of the frame and the `AUDIO_ZERO_COUNT` static
(a `u16`, carried as a `Nat`; the code caps it at 802 so it never
wraps), returning the new counter and whether an audio-frame message
was emitted to subscribers.

Audio samples are `f32` in the source; only the test `*x != 0.` is
applied to them, so they are abstracted to exact integers with the same
zero test.  Modelled from the spec: the opus `encoder.encode_vec_float`
call lives in the external `magnum_opus` crate; the spec treats
services as opaque producers that emit messages on demand, so encoding
is modelled as succeeding. -/
def send_f32 (data : List Int) (zeroCount : Nat) : Nat × Bool :=
  if data.any (fun x => x ≠ 0) then
    (0, true)
  else if MAX_AUDIO_ZERO_COUNT < zeroCount then
    (if zeroCount = MAX_AUDIO_ZERO_COUNT + 1 then zeroCount + 1 else zeroCount,
     false)
  else
    (zeroCount + 1, true)

/-! ## Theorems -/

/-- C1, counterexample: the claim says a parsed handshake message that
is not a `PublicKey` message is a fatal failure of the connection
attempt, but `create_tcp_connection` (secure path, well-formed key
pair) only logs `"Handshake failed: invalid message type"` for it and
proceeds to start the connection over the clear stream. -/
theorem handshake_wrongType_not_aborted :
    create_tcp_connection true SIGN_SECRETKEYBYTES SIGN_PUBLICKEYBYTES
        PeerResponse.wrongType =
      Except.ok { mode := StreamMode.clear, keyConfirmedCleared := false,
                  sentSignedId := true, started := true } := by
  rfl

/-- C1, amended: in the secure handshake path with a well-formed
long-term key pair, `create_tcp_connection` fails the connection
attempt if and only if the peer's response is absent, not parseable, or
carries an ephemeral public key whose length is neither 0 nor the
expected public-key size (an unexpected non-`PublicKey` message is only
logged and the attempt continues in clear mode); in every such failure
the attempt is aborted without the connection ever being started. -/
theorem handshake_failure_characterization (resp : PeerResponse) :
    ((create_tcp_connection true SIGN_SECRETKEYBYTES SIGN_PUBLICKEYBYTES
        resp).isOk = false ↔
      resp = PeerResponse.absent ∨ resp = PeerResponse.unparseable ∨
        ∃ asym sym, resp = PeerResponse.publicKey asym sym ∧
          asym.length ≠ 0 ∧ asym.length ≠ BOX_PUBLICKEYBYTES) ∧
    (∀ out, create_tcp_connection true SIGN_SECRETKEYBYTES SIGN_PUBLICKEYBYTES
        resp = Except.ok out → out.started = true) := by
  constructor
  · cases resp with
    | absent => simp [create_tcp_connection, Except.isOk, Except.toBool]
    | unparseable => simp [create_tcp_connection, Except.isOk, Except.toBool]
    | wrongType => simp [create_tcp_connection, Except.isOk, Except.toBool]
    | publicKey a s =>
      by_cases h32 : a.length = 32
      · simp [create_tcp_connection, Except.isOk, Except.toBool,
              BOX_PUBLICKEYBYTES, h32]
      · by_cases h0 : a.length = 0
        · have ha : a = [] := List.length_eq_zero.mp h0
          simp [create_tcp_connection, Except.isOk, Except.toBool,
                BOX_PUBLICKEYBYTES, h32, ha]
        · constructor
          · intro _
            exact Or.inr (Or.inr ⟨a, s, rfl, h0, h32⟩)
          · intro _
            simp [create_tcp_connection, Except.isOk, Except.toBool,
                  BOX_PUBLICKEYBYTES, h32, h0]
  · intro out h
    cases resp with
    | absent => simp [create_tcp_connection] at h
    | unparseable => simp [create_tcp_connection] at h
    | wrongType =>
      simp [create_tcp_connection] at h
      simp [← h]
    | publicKey a s =>
      by_cases h32 : a.length = 32
      · simp [create_tcp_connection, h32, BOX_PUBLICKEYBYTES] at h
        simp [← h]
      · by_cases h0 : a.length = 0
        · simp [create_tcp_connection, h32, h0, BOX_PUBLICKEYBYTES] at h
          simp [← h]
        · simp [create_tcp_connection, h32, h0, BOX_PUBLICKEYBYTES] at h

/-- C1, witness: a one-byte ephemeral key (length neither 0 nor 32) is
rejected. -/
theorem handshake_failure_characterization_witness :
    (create_tcp_connection true SIGN_SECRETKEYBYTES SIGN_PUBLICKEYBYTES
        (PeerResponse.publicKey [1] [])).isOk = false :=
  (handshake_failure_characterization (PeerResponse.publicKey [1] [])).1.mpr
    (Or.inr (Or.inr ⟨[1], [], rfl, by decide, by decide⟩))

/-- C6: in the secure handshake path, a `PublicKey` response whose
ephemeral-public-key field is empty does not fail the handshake: the
pinned-identity-confirmed flag is cleared, the stream is never switched
into encrypted mode, and the connection proceeds to admission in clear
mode. -/
theorem handshake_empty_key_unpins (sym : List Nat) :
    create_tcp_connection true SIGN_SECRETKEYBYTES SIGN_PUBLICKEYBYTES
        (PeerResponse.publicKey [] sym) =
      Except.ok { mode := StreamMode.clear, keyConfirmedCleared := true,
                  sentSignedId := true, started := true } := by
  rfl

/-- C7: if security is required but the host's long-term key pair has
the wrong lengths (absent or malformed), `create_tcp_connection` skips
the whole key-exchange step and still admits the connection over the
unencrypted stream: no handshake message is sent, no error is returned,
and the connection is started in clear mode. -/
theorem handshake_missing_keypair_degrades (skLen pkLen : Nat)
    (resp : PeerResponse)
    (h : ¬(pkLen = SIGN_PUBLICKEYBYTES ∧ skLen = SIGN_SECRETKEYBYTES)) :
    create_tcp_connection true skLen pkLen resp =
      Except.ok { mode := StreamMode.clear, keyConfirmedCleared := false,
                  sentSignedId := false, started := true } := by
  unfold create_tcp_connection
  rw [if_neg]
  intro hc
  exact h hc.2

/-- C7, witness: an absent key pair (length 0 on both halves) degrades
to a clear-mode admission even for an absent response. -/
theorem handshake_missing_keypair_degrades_witness :
    create_tcp_connection true 0 0 PeerResponse.absent =
      Except.ok { mode := StreamMode.clear, keyConfirmedCleared := false,
                  sentSignedId := false, started := true } :=
  handshake_missing_keypair_degrades 0 0 PeerResponse.absent (by decide)

/-- C9: every write of the chosen voice-call audio input device through
`set_voice_call_input_device` (every call that changes the stored
device) leaves the audio service's restart flag set, and the audio
worker's poll of that flag at the top of its step dispatches to the
restart path; the flag is changed only by this cooperative
store-and-poll mechanism. -/
theorem voice_call_device_write_sets_restart (g : AudioGlobal)
    (device : Option String) (sip : Bool)
    (h : (set_voice_call_input_device g device sip).voiceCallInputDevice ≠
      g.voiceCallInputDevice) :
    (set_voice_call_input_device g device sip).restarting = true ∧
    audio_run_dispatch (set_voice_call_input_device g device sip).restarting =
      AudioRunPath.restartPath := by
  unfold set_voice_call_input_device at *
  by_cases h1 : (!sip && g.voiceCallInputDevice.isSome) = true
  · simp [h1] at h
  · by_cases h2 : g.voiceCallInputDevice = device
    · simp [h1, h2] at h
    · by_cases h3 : g.restarting <;>
        simp [h1, h2, h3, restart, audio_run_dispatch]

/-- C9, witness: choosing a device on a quiescent audio service sets
the restart flag. -/
theorem voice_call_device_write_sets_restart_witness :
    (set_voice_call_input_device ⟨none, false⟩ (some "mic") true).restarting =
      true ∧
    audio_run_dispatch
        (set_voice_call_input_device ⟨none, false⟩ (some "mic")
          true).restarting =
      AudioRunPath.restartPath :=
  voice_call_device_write_sets_restart ⟨none, false⟩ (some "mic") true
    (by decide)

/-- C10: `send_f32` implements a silence gate: a frame with at least
one nonzero sample resets the consecutive-zero counter to 0 and is
encoded and delivered; an all-zero frame increments the counter (and is
still delivered while the counter has not exceeded
`MAX_AUDIO_ZERO_COUNT`); once the counter has exceeded
`MAX_AUDIO_ZERO_COUNT` (800), all-zero frames produce no outgoing audio
message and keep the counter above the bound, until a nonzero frame
arrives and resets it. -/
theorem send_f32_silence_gate :
    (∀ data zeroCount, data.any (fun x => x ≠ 0) = true →
        send_f32 data zeroCount = (0, true)) ∧
    (∀ data zeroCount, data.any (fun x => x ≠ 0) = false →
        zeroCount ≤ MAX_AUDIO_ZERO_COUNT →
        send_f32 data zeroCount = (zeroCount + 1, true)) ∧
    (∀ data zeroCount, data.any (fun x => x ≠ 0) = false →
        MAX_AUDIO_ZERO_COUNT < zeroCount →
        (send_f32 data zeroCount).2 = false ∧
          MAX_AUDIO_ZERO_COUNT < (send_f32 data zeroCount).1) := by
  refine ⟨?_, ?_, ?_⟩
  · intro data zc h
    simp only [send_f32]
    rw [if_pos h]
  · intro data zc h hle
    simp only [send_f32]
    rw [if_neg (by simp only [h]; exact Bool.false_ne_true),
       if_neg (Nat.not_lt.mpr hle)]
  · intro data zc h hlt
    simp only [send_f32]
    rw [if_neg (by simp only [h]; exact Bool.false_ne_true), if_pos hlt]
    refine ⟨rfl, ?_⟩
    by_cases he : zc = MAX_AUDIO_ZERO_COUNT + 1 <;> simp [he] <;> omega

/-- C10, witness: a frame with a nonzero sample resets the counter and
is delivered; an all-zero frame past the gate produces no message. -/
theorem send_f32_silence_gate_witness :
    send_f32 [0, 5] 3 = (0, true) ∧ send_f32 [0, 0] 10 = (11, true) ∧
    (send_f32 [0, 0] 801).2 = false :=
  ⟨send_f32_silence_gate.1 [0, 5] 3 (by decide),
   send_f32_silence_gate.2.1 [0, 0] 10 (by decide) (by decide),
   (send_f32_silence_gate.2.2 [0, 0] 801 (by decide) (by decide)).1⟩

/-- Rust `%` on `i32` (truncated remainder) by 1000 lies in
`[-999, 999]`. -/
theorem tmod_thousand_bounds (r : Int) :
    -999 ≤ Int.tmod r 1000 ∧ Int.tmod r 1000 ≤ 999 := by
  have hneg : ∀ a b : Int, Int.tmod (-a) b = -(Int.tmod a b) := by
    intro a b
    simp only [Int.tmod_def, Int.neg_tdiv, mul_neg, neg_sub]
    ring
  rcases le_or_lt 0 r with h | h
  · have h1 := Int.tmod_nonneg (1000 : Int) h
    have h2 := Int.tmod_lt_of_pos r (by norm_num : (0 : Int) < 1000)
    omega
  · have h1 := Int.tmod_nonneg (1000 : Int) (by omega : (0 : Int) ≤ -r)
    have h2 := Int.tmod_lt_of_pos (-r) (by norm_num : (0 : Int) < 1000)
    have h3 : Int.tmod r 1000 = -(Int.tmod (-r) 1000) := by
      rw [← hneg, neg_neg]
    omega

/-- `wrap32` is the identity on the `i32` range. -/
theorem wrap32_eq_self (x : Int) (h1 : -2 ^ 31 ≤ x) (h2 : x < 2 ^ 31) :
    wrap32 x = x := by
  unfold wrap32
  rw [Int.emod_eq_of_lt (by omega) (by omega)]
  ring

/-- As long as the counter stays inside the `i32` range, the ids
returned by `genIds` are strictly increasing and all exceed the
starting counter value. -/
theorem genIds_chain (n : Nat) : ∀ sv : Server,
    -2 ^ 31 ≤ sv.id_count → sv.id_count + n ≤ 2 ^ 31 - 1 →
    (sv.genIds n).Pairwise (· < ·) ∧ ∀ x ∈ sv.genIds n, sv.id_count < x := by
  induction n with
  | zero =>
    intro sv _ _
    exact ⟨List.Pairwise.nil, by intro x hx; cases hx⟩
  | succ n ih =>
    intro sv h1 h2
    have hn : (↑(n + 1) : Int) = ↑n + 1 := by push_cast; ring
    rw [hn] at h2
    have hw : wrap32 (sv.id_count + 1) = sv.id_count + 1 :=
      wrap32_eq_self _ (by omega) (by omega)
    have hrec := ih { sv with id_count := sv.id_count + 1 }
      (by show -2 ^ 31 ≤ sv.id_count + 1; omega)
      (by show sv.id_count + 1 + (n : Int) ≤ 2 ^ 31 - 1; omega)
    have hmem : ∀ x ∈ Server.genIds { sv with id_count := sv.id_count + 1 } n,
        sv.id_count + 1 < x := fun x hx => hrec.2 x hx
    have hcons : sv.genIds (n + 1) = (sv.id_count + 1) ::
        Server.genIds { sv with id_count := sv.id_count + 1 } n := by
      show (wrap32 (sv.id_count + 1)) ::
          Server.genIds { sv with id_count := wrap32 (sv.id_count + 1) } n = _
      rw [hw]
    rw [hcons]
    constructor
    · exact List.Pairwise.cons hmem hrec.1
    · intro x hx
      rcases List.mem_cons.mp hx with hx | hx
      · omega
      · have := hmem x hx
        omega

/-- C4: on a freshly constructed `Server`, `n` successive `get_new_id`
calls return pairwise-distinct, strictly increasing values (assuming no
32-bit wraparound, guaranteed here by the bound on `n`), and every
returned value — in particular the first — is strictly positive because
the counter is seeded with a randomized positive offset. -/
theorem get_new_id_distinct_increasing (r : Int) (svcs : List Service)
    (n : Nat) (h : n ≤ 2 ^ 31 - 2000) :
    ((Server.new r svcs).genIds n).Pairwise (· < ·) ∧
    ((Server.new r svcs).genIds n).Nodup ∧
    (∀ x ∈ (Server.new r svcs).genIds n, 0 < x) := by
  have hb := tmod_thousand_bounds r
  have hn : (n : Int) ≤ 2 ^ 31 - 2000 := by omega
  have hrec := genIds_chain n (Server.new r svcs)
    (by show -2 ^ 31 ≤ Int.tmod r 1000 + 1000; omega)
    (by show Int.tmod r 1000 + 1000 + (n : Int) ≤ 2 ^ 31 - 1; omega)
  refine ⟨hrec.1, hrec.1.imp ne_of_lt, ?_⟩
  intro x hx
  have hx2 : Int.tmod r 1000 + 1000 < x := hrec.2 x hx
  omega

/-- C4, witness: three allocations on a concrete fresh server. -/
theorem get_new_id_distinct_increasing_witness :
    ((Server.new 12345 []).genIds 3).Pairwise (· < ·) ∧
    ((Server.new 12345 []).genIds 3).Nodup ∧
    (∀ x ∈ (Server.new 12345 []).genIds 3, 0 < x) :=
  get_new_id_distinct_increasing 12345 [] 3 (by norm_num)

/-- After `on_subscribe`, the connection is a subscriber. -/
theorem is_subed_on_subscribe (s : Service) (c : Int) :
    (s.on_subscribe c).is_subed c = true := by
  unfold Service.on_subscribe Service.is_subed
  split
  · assumption
  · simp

/-- `on_subscribe` never changes the service's name. -/
theorem name_on_subscribe (s : Service) (c : Int) :
    (s.on_subscribe c).name = s.name := by
  unfold Service.on_subscribe
  split <;> rfl

/-- Unfolding of `add_connection`: its per-service action is a `map`. -/
theorem add_connection_services (sv : Server) (primaryIdx : Nat) (connId : Int)
    (noperms : List String) :
    (sv.add_connection primaryIdx connId noperms).services =
      sv.services.map (fun s =>
        if is_video_service_name s.name = true ∧
            s.name ≠ get_service_name VideoSource.Monitor primaryIdx then s
        else if noperms.contains s.name then s
        else s.on_subscribe connId) := rfl

/-- C2: a connection admitted through `add_connection` is subscribed to
a registered service exactly when the service's name is not a video
service name other than the primary display's video service name, and
the name is not in the denylist; service names and order are
preserved. -/
theorem add_connection_default_subscription (sv : Server) (primaryIdx : Nat)
    (connId : Int) (noperms : List String) (i : Nat) (s : Service)
    (hs : sv.services[i]? = some s)
    (hfresh : s.is_subed connId = false) :
    ∃ t, (sv.add_connection primaryIdx connId noperms).services[i]? =
        some t ∧
      t.name = s.name ∧
      (t.is_subed connId = true ↔
        ¬(is_video_service_name s.name = true ∧
            s.name ≠ get_service_name VideoSource.Monitor primaryIdx) ∧
          s.name ∉ noperms) := by
  rw [add_connection_services, List.getElem?_map, hs, Option.map_some']
  refine ⟨_, rfl, ?_, ?_⟩
  · by_cases h1 : is_video_service_name s.name = true ∧
        s.name ≠ get_service_name VideoSource.Monitor primaryIdx
    · rw [if_pos h1]
    · rw [if_neg h1]
      by_cases h2 : noperms.contains s.name = true
      · rw [if_pos h2]
      · rw [if_neg h2]
        exact name_on_subscribe s connId
  · by_cases h1 : is_video_service_name s.name = true ∧
        s.name ≠ get_service_name VideoSource.Monitor primaryIdx
    · rw [if_pos h1, hfresh]
      constructor
      · intro hc
        exact absurd hc Bool.false_ne_true
      · intro hc
        exact absurd h1 hc.1
    · rw [if_neg h1]
      by_cases h2 : noperms.contains s.name = true
      · rw [if_pos h2, hfresh]
        constructor
        · intro hc
          exact absurd hc Bool.false_ne_true
        · intro hc
          exact absurd (List.mem_of_elem_eq_true h2) hc.2
      · rw [if_neg h2, is_subed_on_subscribe]
        constructor
        · intro _
          exact ⟨h1, fun hm => h2 (List.elem_eq_true_of_mem hm)⟩
        · intro _
          rfl

/-- C2, witness: with two monitor services (primary display index 0)
and an empty denylist, a freshly admitted connection is subscribed to
the primary monitor service and not to the secondary one. -/
theorem add_connection_default_subscription_witness :
    (∃ t, ((Server.mk [] [Service.mk "monitor_0" [], Service.mk "monitor_1" []]
        1000).add_connection 0 7 []).services[0]? = some t ∧
      t.is_subed 7 = true) ∧
    (∃ t, ((Server.mk [] [Service.mk "monitor_0" [], Service.mk "monitor_1" []]
        1000).add_connection 0 7 []).services[1]? = some t ∧
      t.is_subed 7 = false) := by
  constructor
  · obtain ⟨t, h1, _, h3⟩ := add_connection_default_subscription
      (Server.mk [] [Service.mk "monitor_0" [], Service.mk "monitor_1" []]
        1000) 0 7 [] 0 (Service.mk "monitor_0" []) rfl rfl
    exact ⟨t, h1, h3.mpr (by decide)⟩
  · obtain ⟨t, h1, _, h3⟩ := add_connection_default_subscription
      (Server.mk [] [Service.mk "monitor_0" [], Service.mk "monitor_1" []]
        1000) 0 7 [] 1 (Service.mk "monitor_1" []) rfl rfl
    refine ⟨t, h1, ?_⟩
    rw [Bool.eq_false_iff]
    intro hc
    exact absurd (h3.mp hc) (by decide)

/-- C3: a connection admitted through `add_connection` with a denylist
containing a service's name leaves that service completely untouched —
in particular the connection is not subscribed to it by admission. -/
theorem add_connection_denylist (sv : Server) (primaryIdx : Nat)
    (connId : Int) (noperms : List String) (i : Nat) (s : Service)
    (hs : sv.services[i]? = some s) (hdeny : s.name ∈ noperms) :
    (sv.add_connection primaryIdx connId noperms).services[i]? = some s := by
  rw [add_connection_services, List.getElem?_map, hs, Option.map_some']
  by_cases h1 : is_video_service_name s.name = true ∧
      s.name ≠ get_service_name VideoSource.Monitor primaryIdx
  · rw [if_pos h1]
  · rw [if_neg h1, if_pos (List.elem_eq_true_of_mem hdeny)]

/-- C3, witness: the "audio" service stays untouched when "audio" is in
the denylist. -/
theorem add_connection_denylist_witness :
    ((Server.mk [] [Service.mk "audio" []] 1000).add_connection 0 7
      ["audio"]).services[0]? = some (Service.mk "audio" []) :=
  add_connection_denylist (Server.mk [] [Service.mk "audio" []] 1000) 0 7
    ["audio"] 0 (Service.mk "audio" []) rfl (by decide)

/-- `on_unsubscribe` never changes the service's name. -/
theorem name_on_unsubscribe (s : Service) (c : Int) :
    (s.on_unsubscribe c).name = s.name := rfl

/-- `subscribe` is a no-op (state unchanged, no notification) whenever
the looked-up service — if any — is already in the desired state. -/
theorem subscribeE_noop (sv : Server) (name : String) (connId : Int)
    (sub : Bool)
    (h : ∀ s, sv.services.find? (fun t => t.name = name) = some s →
      s.is_subed connId = sub) :
    sv.subscribeE name connId sub = (sv, []) := by
  cases hfind : sv.services.find? (fun t => t.name = name) with
  | none => simp only [Server.subscribeE, hfind]
  | some s =>
    have hs := h s hfind
    simp only [Server.subscribeE, hfind]
    rw [if_pos hs]

/-- Looking a name up after a name-preserving update of the services
with that name commutes with the update. -/
theorem find?_after_update (l : List Service) (name : String)
    (g : Service → Service) (hg : ∀ t, (g t).name = t.name) :
    (l.map (fun t => if t.name = name then g t else t)).find?
        (fun t => t.name = name) =
      (l.find? (fun t => t.name = name)).map
        (fun t => if t.name = name then g t else t) := by
  rw [List.find?_map]
  have hp : ((fun t : Service => decide (t.name = name)) ∘
      (fun t => if t.name = name then g t else t)) =
      fun t : Service => decide (t.name = name) := by
    funext t
    simp only [Function.comp]
    by_cases h : t.name = name
    · simp [h, hg t]
    · simp [h]
  rw [hp]

/-- C5: `subscribe` (the source of `set_subscription`) is idempotent:
if the connection's current subscription state for the service already
equals the desired state, the call leaves the registry unchanged and
issues no notification; and calling `subscribe(s, c, true)` twice in a
row is observably identical to calling it once (same final state, no
second notification). -/
theorem subscribe_idempotent :
    (∀ (sv : Server) (name : String) (connId : Int) (sub : Bool)
        (s : Service),
      sv.services.find? (fun t => t.name = name) = some s →
      s.is_subed connId = sub →
      sv.subscribeE name connId sub = (sv, [])) ∧
    (∀ (sv : Server) (name : String) (connId : Int),
      (sv.subscribe name connId true).subscribeE name connId true =
        (sv.subscribe name connId true, [])) := by
  constructor
  · intro sv name connId sub s hfind hsub
    refine subscribeE_noop sv name connId sub fun s' hf' => ?_
    rw [hfind] at hf'
    injection hf' with h'
    rw [← h']
    exact hsub
  · intro sv name connId
    unfold Server.subscribe
    cases hfind : sv.services.find? (fun t => t.name = name) with
    | none =>
      have h1 : sv.subscribeE name connId true = (sv, []) := by
        simp only [Server.subscribeE, hfind]
      rw [h1]
      exact h1
    | some s =>
      have hname : s.name = name := by
        have h' := List.find?_some hfind
        simpa using h' 
      by_cases hsub : s.is_subed connId = true
      · have h1 : sv.subscribeE name connId true = (sv, []) := by
          simp only [Server.subscribeE, hfind]
          rw [if_pos hsub]
        rw [h1]
        exact h1
      · have h1 : sv.subscribeE name connId true =
            ({ sv with services := sv.services.map (fun t =>
                if t.name = name then t.on_subscribe connId else t) },
             [SubEvent.subscribed name connId]) := by
          simp only [Server.subscribeE, hfind]
          rw [if_neg hsub]
          simp
        have hfind2 : (sv.services.map (fun t =>
            if t.name = name then t.on_subscribe connId else t)).find?
              (fun t => t.name = name) = some (s.on_subscribe connId) := by
          rw [find?_after_update sv.services name
            (fun t => t.on_subscribe connId)
            (fun t => name_on_subscribe t connId), hfind,
            Option.map_some', if_pos hname]
        rw [h1]
        refine subscribeE_noop _ name connId true fun s' hf' => ?_
        have hf2 : (sv.services.map (fun t =>
            if t.name = name then t.on_subscribe connId else t)).find?
              (fun t => t.name = name) = some s' := hf'
        rw [hfind2] at hf2
        injection hf2 with h'
        rw [← h']
        exact is_subed_on_subscribe s connId

/-- C5, witness: a no-op request and a repeated subscribe on a concrete
one-service registry. -/
theorem subscribe_idempotent_witness :
    (Server.mk [] [Service.mk "audio" []] 1000).subscribeE "audio" 7 false =
      (Server.mk [] [Service.mk "audio" []] 1000, []) ∧
    ((Server.mk [] [Service.mk "audio" [5]] 1000).subscribe "audio" 7
        true).subscribeE "audio" 7 true =
      ((Server.mk [] [Service.mk "audio" [5]] 1000).subscribe "audio" 7 true,
       []) :=
  ⟨subscribe_idempotent.1 (Server.mk [] [Service.mk "audio" []] 1000) "audio"
      7 false (Service.mk "audio" []) (by decide) (by decide),
   subscribe_idempotent.2 (Server.mk [] [Service.mk "audio" [5]] 1000)
      "audio" 7⟩

/-- After `on_unsubscribe`, the connection is no longer a subscriber. -/
theorem is_subed_on_unsubscribe (s : Service) (c : Int) :
    (s.on_unsubscribe c).is_subed c = false := by
  unfold Service.on_unsubscribe Service.is_subed
  simp

/-- With pairwise-distinct service names, a lookup by the name of the
`i`-th service finds exactly that service. -/
theorem find?_name_of_getElem? : ∀ (l : List Service) (i : Nat) (s : Service),
    (l.map Service.name).Nodup → l[i]? = some s →
    l.find? (fun t => t.name = s.name) = some s := by
  intro l
  induction l with
  | nil =>
    intro i s _ h
    simp at h
  | cons a l ih =>
    intro i s hnd h
    have hnd2 : (∀ x ∈ l, ¬x.name = a.name) ∧
        (List.map Service.name l).Nodup := by simpa using hnd
    cases i with
    | zero =>
      have ha : a = s := by simpa using h
      subst ha
      exact List.find?_cons_of_pos l (by simp)
    | succ n =>
      have h' : l[n]? = some s := by simpa using h
      have hmem : s ∈ l := List.getElem?_mem h'
      have hne : ¬(a.name = s.name) := fun hc => hnd2.1 s hmem hc.symm
      rw [List.find?_cons_of_neg l (by simpa using hne)]
      exact ih n s hnd2.2 h'

/-- `subscribe` leaves every service with a different name untouched. -/
theorem subscribe_getElem?_ne (sv : Server) (name : String) (c : Int)
    (b : Bool) (i : Nat) (s : Service) (hs : sv.services[i]? = some s)
    (hne : s.name ≠ name) :
    (sv.subscribe name c b).services[i]? = some s := by
  unfold Server.subscribe
  cases hfind : sv.services.find? (fun t => t.name = name) with
  | none =>
    simp only [Server.subscribeE, hfind]
    exact hs
  | some u =>
    by_cases hsub : u.is_subed c = b
    · simp only [Server.subscribeE, hfind]
      rw [if_pos hsub]
      exact hs
    · simp only [Server.subscribeE, hfind]
      rw [if_neg hsub]
      show (sv.services.map _)[i]? = some s
      rw [List.getElem?_map, hs, Option.map_some', if_neg hne]

/-- `subscribe` preserves the list of service names. -/
theorem subscribe_names (sv : Server) (name : String) (c : Int) (b : Bool) :
    (sv.subscribe name c b).services.map Service.name =
      sv.services.map Service.name := by
  unfold Server.subscribe
  cases hfind : sv.services.find? (fun t => t.name = name) with
  | none => simp only [Server.subscribeE, hfind]
  | some u =>
    by_cases hsub : u.is_subed c = b
    · simp only [Server.subscribeE, hfind]
      rw [if_pos hsub]
    · simp only [Server.subscribeE, hfind]
      rw [if_neg hsub]
      show (sv.services.map _).map Service.name = _
      rw [List.map_map]
      refine List.map_congr_left fun t _ => ?_
      simp only [Function.comp]
      by_cases ht : t.name = name
      · rw [if_pos ht]
        cases b
        · exact name_on_unsubscribe t c
        · exact name_on_subscribe t c
      · rw [if_neg ht]

/-- With pairwise-distinct names, `subscribe` drives the named service
to the desired state while preserving its name. -/
theorem subscribe_getElem?_eq (sv : Server) (c : Int) (b : Bool)
    (hnd : (sv.services.map Service.name).Nodup)
    (i : Nat) (s : Service) (hs : sv.services[i]? = some s) :
    ∃ t, (sv.subscribe s.name c b).services[i]? = some t ∧
      t.name = s.name ∧ t.is_subed c = b := by
  have hfind := find?_name_of_getElem? sv.services i s hnd hs
  unfold Server.subscribe
  by_cases hsub : s.is_subed c = b
  · refine ⟨s, ?_, rfl, hsub⟩
    simp only [Server.subscribeE, hfind]
    rw [if_pos hsub]
    exact hs
  · refine ⟨if b then s.on_subscribe c else s.on_unsubscribe c, ?_, ?_, ?_⟩
    · simp only [Server.subscribeE, hfind]
      rw [if_neg hsub]
      show (sv.services.map _)[i]? = _
      rw [List.getElem?_map, hs, Option.map_some', if_pos rfl]
    · cases b
      · exact name_on_unsubscribe s c
      · exact name_on_subscribe s c
    · cases b
      · exact is_subed_on_unsubscribe s c
      · exact is_subed_on_subscribe s c

/-- A `capture_displays` loop iteration leaves every service whose name
differs from the processed key untouched. -/
theorem captureStep_getElem?_ne (names : List String) (c : Int)
    (inc exc : Bool) (acc : Server) (m : String) (i : Nat) (s : Service)
    (hs : acc.services[i]? = some s) (hne : s.name ≠ m) :
    (captureStep names c inc exc acc m).services[i]? = some s := by
  unfold captureStep
  split
  · split
    · split
      · exact subscribe_getElem?_ne acc m c true i s hs hne
      · exact hs
    · split
      · exact subscribe_getElem?_ne acc m c false i s hs hne
      · exact hs
  · exact hs

/-- A `capture_displays` loop iteration on a non-video key does
nothing. -/
theorem captureStep_not_video (names : List String) (c : Int)
    (inc exc : Bool) (acc : Server) (m : String)
    (hm : is_video_service_name m = false) :
    captureStep names c inc exc acc m = acc := by
  unfold captureStep
  rw [if_neg]
  simp [hm]

/-- A `capture_displays` loop iteration preserves the list of service
names. -/
theorem captureStep_names (names : List String) (c : Int) (inc exc : Bool)
    (acc : Server) (m : String) :
    (captureStep names c inc exc acc m).services.map Service.name =
      acc.services.map Service.name := by
  unfold captureStep
  split
  · split
    · split
      · exact subscribe_names acc m c true
      · rfl
    · split
      · exact subscribe_names acc m c false
      · rfl
  · rfl

/-- Effect of the `capture_displays` loop iteration that processes the
`i`-th service's own name, with pairwise-distinct names. -/
theorem captureStep_getElem?_eq (names : List String) (c : Int)
    (inc exc : Bool) (acc : Server) (i : Nat) (s : Service)
    (hnd : (acc.services.map Service.name).Nodup)
    (hs : acc.services[i]? = some s) :
    ∃ t, (captureStep names c inc exc acc s.name).services[i]? = some t ∧
      t.name = s.name ∧
      t.is_subed c =
        (if is_video_service_name s.name then
          (if names.contains s.name then (if inc then true else s.is_subed c)
          else (if exc then false else s.is_subed c))
        else s.is_subed c) := by
  unfold captureStep
  by_cases hv : is_video_service_name s.name = true
  · rw [if_pos hv, if_pos hv]
    by_cases hc : names.contains s.name = true
    · rw [if_pos hc, if_pos hc]
      cases inc
      · exact ⟨s, hs, rfl, by rw [if_neg (by simp)]⟩
      · obtain ⟨t, ht, htn, hts⟩ := subscribe_getElem?_eq acc c true hnd i s hs
        exact ⟨t, ht, htn, by rw [hts, if_pos rfl]⟩
    · rw [if_neg hc, if_neg hc]
      cases exc
      · exact ⟨s, hs, rfl, by rw [if_neg (by simp)]⟩
      · obtain ⟨t, ht, htn, hts⟩ := subscribe_getElem?_eq acc c false hnd i s hs
        exact ⟨t, ht, htn, by rw [hts, if_pos rfl]⟩
  · rw [if_neg hv, if_neg hv]
    exact ⟨s, hs, rfl, rfl⟩

/-- Folding the `capture_displays` loop over keys that do not contain a
service's name leaves that service untouched. -/
theorem foldl_captureStep_ne (names : List String) (c : Int)
    (inc exc : Bool) : ∀ (ks : List String) (acc : Server) (i : Nat)
    (s : Service), acc.services[i]? = some s → s.name ∉ ks →
    (ks.foldl (captureStep names c inc exc) acc).services[i]? = some s := by
  intro ks
  induction ks with
  | nil =>
    intro acc i s hs _
    exact hs
  | cons m ks ih =>
    intro acc i s hs hni
    rw [List.foldl_cons]
    have hni2 := List.ne_and_not_mem_of_not_mem_cons hni
    exact ih _ i s (captureStep_getElem?_ne names c inc exc acc m i s hs
      hni2.1) hni2.2

/-- Folding the `capture_displays` loop over any keys leaves every
non-video service untouched. -/
theorem foldl_captureStep_not_video (names : List String) (c : Int)
    (inc exc : Bool) : ∀ (ks : List String) (acc : Server) (i : Nat)
    (s : Service), acc.services[i]? = some s →
    is_video_service_name s.name = false →
    (ks.foldl (captureStep names c inc exc) acc).services[i]? = some s := by
  intro ks
  induction ks with
  | nil =>
    intro acc i s hs _
    exact hs
  | cons m ks ih =>
    intro acc i s hs hnv
    rw [List.foldl_cons]
    by_cases hm : s.name = m
    · rw [← hm, captureStep_not_video names c inc exc acc s.name hnv]
      exact ih acc i s hs hnv
    · exact ih _ i s (captureStep_getElem?_ne names c inc exc acc m i s hs hm)
        hnv

/-- Folding the `capture_displays` loop preserves the list of service
names. -/
theorem foldl_captureStep_names (names : List String) (c : Int)
    (inc exc : Bool) : ∀ (ks : List String) (acc : Server),
    ((ks.foldl (captureStep names c inc exc) acc).services.map
        Service.name) = acc.services.map Service.name := by
  intro ks
  induction ks with
  | nil =>
    intro acc
    rfl
  | cons m ks ih =>
    intro acc
    rw [List.foldl_cons, ih, captureStep_names]

/-- C8, counterexample: the claim says services whose name does not
match the requested source kind keep their subscription state, but
`capture_displays` with `exclude` set iterates over every video-named
service of either source kind: on a registry with a subscribed monitor
service and a subscribed camera service, a Monitor-sourced request
keeps the monitor subscription yet strips the camera one. -/
theorem capture_displays_cross_source_unsubscribed :
    ((Server.mk [] [Service.mk "monitor_0" [7], Service.mk "camera_0" [7]]
        1000).capture_displays 7 VideoSource.Monitor [0] true
        true).services =
      [Service.mk "monitor_0" [7], Service.mk "camera_0" []] := by
  decide

/-- C8, amended: with pairwise-distinct service names,
`capture_displays(conn, source, displays, include, exclude)` drives
each service's subscription state for the connection as follows: a
video-named service (of either source kind) whose name is among the
requested names is subscribed when `include` is set; a video-named
service (of either source kind) whose name is not among them is
unsubscribed when `exclude` is set; every other combination — services
whose name is not a video service name, requested names without
`include`, unrequested video names without `exclude` — keeps its
previous state; names and order are preserved. -/
theorem capture_displays_characterization (sv : Server) (connId : Int)
    (source : VideoSource) (displays : List Nat) (inc exc : Bool)
    (hnd : (sv.services.map Service.name).Nodup)
    (i : Nat) (s : Service) (hs : sv.services[i]? = some s) :
    ∃ t, (sv.capture_displays connId source displays inc
        exc).services[i]? = some t ∧
      t.name = s.name ∧
      t.is_subed connId =
        (if is_video_service_name s.name then
          (if (displays.map (get_service_name source)).contains s.name then
            (if inc then true else s.is_subed connId)
          else (if exc then false else s.is_subed connId))
        else s.is_subed connId) := by
  unfold Server.capture_displays
  by_cases hv : is_video_service_name s.name = true
  · have hkeys : s.name ∈ sv.services.map Service.name :=
      List.mem_map_of_mem Service.name (List.getElem?_mem hs)
    obtain ⟨l1, l2, hsplit⟩ := List.append_of_mem hkeys
    have hnd1 : ((l1 ++ s.name :: l2).map id).Nodup := by
      rw [List.map_id, ← hsplit]
      exact hnd
    rw [List.map_id] at hnd1
    have hnd2 := List.nodup_append.mp hnd1
    have hn1 : s.name ∉ l1 := fun h =>
      hnd2.2.2 h (List.mem_cons_self s.name l2)
    have hn2 : s.name ∉ l2 := (List.nodup_cons.mp hnd2.2.1).1
    rw [hsplit, List.foldl_append, List.foldl_cons]
    have h1 : ((l1.foldl (captureStep (displays.map (get_service_name
        source)) connId inc exc) sv).services)[i]? = some s :=
      foldl_captureStep_ne _ connId inc exc l1 sv i s hs hn1
    have hnda : (((l1.foldl (captureStep (displays.map (get_service_name
        source)) connId inc exc) sv).services).map Service.name).Nodup := by
      rw [foldl_captureStep_names]
      exact hnd
    obtain ⟨t, ht, htn, hts⟩ := captureStep_getElem?_eq
      (displays.map (get_service_name source)) connId inc exc _ i s hnda h1
    refine ⟨t, ?_, htn, hts⟩
    refine foldl_captureStep_ne _ connId inc exc l2 _ i t ht ?_
    rw [htn]
    exact hn2
  · have hv2 : is_video_service_name s.name = false :=
      Bool.not_eq_true _ ▸ (by simpa using hv)
    refine ⟨s, foldl_captureStep_not_video _ connId inc exc _ sv i s hs hv2,
      rfl, ?_⟩
    rw [if_neg (by simp [hv2])]

/-- C8, witness: a connection subscribed to display 0 that requests
display 1 with `include=true, exclude=false` keeps display 0 and gains
display 1. -/
theorem capture_displays_characterization_witness :
    (∃ t, ((Server.mk [] [Service.mk "monitor_0" [7],
        Service.mk "monitor_1" []] 1000).capture_displays 7
        VideoSource.Monitor [1] true false).services[0]? = some t ∧
      t.is_subed 7 = true) ∧
    (∃ t, ((Server.mk [] [Service.mk "monitor_0" [7],
        Service.mk "monitor_1" []] 1000).capture_displays 7
        VideoSource.Monitor [1] true false).services[1]? = some t ∧
      t.is_subed 7 = true) := by
  constructor
  · obtain ⟨t, ht, htn, hts⟩ := capture_displays_characterization
      (Server.mk [] [Service.mk "monitor_0" [7], Service.mk "monitor_1" []]
        1000) 7 VideoSource.Monitor [1] true false (by decide) 0
      (Service.mk "monitor_0" [7]) (by decide)
    exact ⟨t, ht, hts.trans (by decide)⟩
  · obtain ⟨t, ht, htn, hts⟩ := capture_displays_characterization
      (Server.mk [] [Service.mk "monitor_0" [7], Service.mk "monitor_1" []]
        1000) 7 VideoSource.Monitor [1] true false (by decide) 1
      (Service.mk "monitor_1" []) (by decide)
    exact ⟨t, ht, hts.trans (by decide)⟩

end Rustdesk
